import Mathlib

/-!
Verification of the Parkinson's motor-symptom detection pipeline
(rtes-shake-rattle-roll): fixed-size window assembly, spectral band-energy
extraction, and the priority-ordered stateful symptom classifier.

The embedding follows the FFT-based priority state machine which the
specification designates as the system of record (spec section 9): the
classification logic of `processSignal` in `src/src/main_last.cpp`
(identical to `src/src/main_best.cpp` except for the frozen-state tremor
escape), the window-assembly cadence of `loop` in `src/src/main_best.cpp`,
and the band integration shared by both mains and `test/test_algo.cpp`.
C++ `double` arithmetic is modelled by exact arithmetic (rationals for the
classifier and band sums, reals for the spectral chain).
-/

namespace PDMonitor

/-- Per-window band energies, one scalar per configured band
(`energyLocomotor`, `energyTremor`, `energyDyskinesia`, `energyFreeze`
in `processSignal`). Polymorphic so the spectral chain can produce real
values while the classifier claims quantify over exact rationals. -/
structure Energies (α : Type) where
  locomotor : α
  tremor : α
  dyskinesia : α
  freeze : α
deriving Repr, DecidableEq

/-- The two persisted classifier bits (`static bool isFrozenState`,
`static bool wasWalking` in `processSignal`). -/
structure ClassifierState where
  is_frozen : Bool
  was_walking : Bool
deriving Repr, DecidableEq

/-- Per-window output (`tremorVal`, `dyskinesiaVal`, `fogVal`, the three
`uint8_t` values written to the BLE characteristics). `fog_active` models
`fogVal` which is only ever 0 or 1. -/
structure DetectionResult where
  tremor_intensity : ℕ
  dyskinesia_intensity : ℕ
  fog_active : Bool
deriving Repr, DecidableEq

/-- `const double ACTION_THRESHOLD = 15000.0;` in `processSignal`. -/
def ACTION_THRESHOLD : ℚ := 15000

/-- `const double WALK_THRESHOLD = 10000.0;` in `processSignal`. -/
def WALK_THRESHOLD : ℚ := 10000

/-- `(uint8_t)min(energy / 1000.0, 100.0)`: the truncating integer cast of
the clamped scaled energy.  The cast truncates toward zero; every call site
guards the energy above `ACTION_THRESHOLD > 0`, so truncation agrees with
the floor. -/
def intensity (x : ℚ) : ℕ :=
  (Int.floor (min (x / 1000) 100)).toNat

/-- Rule-2 (and rule-1a) condition: `energyTremor > ACTION_THRESHOLD &&
energyTremor > energyLocomotor && energyTremor > energyDyskinesia`
(rule 1a lists the same three conjuncts with the last two swapped). -/
def tremorDominant (e : Energies ℚ) : Prop :=
  e.tremor > ACTION_THRESHOLD ∧ e.tremor > e.locomotor ∧ e.tremor > e.dyskinesia

instance (e : Energies ℚ) : Decidable (tremorDominant e) := by
  unfold tremorDominant; infer_instance

/-- Rule-3 condition: `energyDyskinesia > ACTION_THRESHOLD &&
energyDyskinesia > energyTremor`. -/
def dyskinesiaDominant (e : Energies ℚ) : Prop :=
  e.dyskinesia > ACTION_THRESHOLD ∧ e.dyskinesia > e.tremor

instance (e : Energies ℚ) : Decidable (dyskinesiaDominant e) := by
  unfold dyskinesiaDominant; infer_instance

/-- Rule-4 scenario A (mixed mode): `energyLocomotor > WALK_THRESHOLD &&
(energyFreeze / energyLocomotor > 1.5)`.  In the C++ the `&&`
short-circuits, so the division only executes with
`energyLocomotor > 10000 > 0`; rational division is total, and the two
agree on every evaluated path. -/
def fogMixedMode (e : Energies ℚ) : Prop :=
  e.locomotor > WALK_THRESHOLD ∧ e.freeze / e.locomotor > 3 / 2

instance (e : Energies ℚ) : Decidable (fogMixedMode e) := by
  unfold fogMixedMode; infer_instance

/-- Rule-4 scenario A with the short-circuit guard made syntactic: the
ratio is only computed under the `energyLocomotor > WALK_THRESHOLD` guard,
otherwise the test is `False`. -/
def fogMixedModeGuarded (e : Energies ℚ) : Prop :=
  if e.locomotor > WALK_THRESHOLD then e.freeze / e.locomotor > 3 / 2 else False

/-- Rule-4 scenario B (context mode): `wasWalking && energyFreeze >
ACTION_THRESHOLD && energyFreeze > energyLocomotor`. -/
def fogContextMode (e : Energies ℚ) (wasWalking : Bool) : Prop :=
  wasWalking = true ∧ e.freeze > ACTION_THRESHOLD ∧ e.freeze > e.locomotor

instance (e : Energies ℚ) (w : Bool) : Decidable (fogContextMode e w) := by
  unfold fogContextMode; infer_instance

/-- Priorities 2-6 of the state machine in `processSignal`
(`src/src/main_last.cpp` lines 283-336): the code reached either directly
(prior `isFrozenState` false) or by falling through the frozen-state
release (rule 1c), which has already cleared `isFrozenState`.  Priorities
5 and 6 leave `isFrozenState` untouched, hence `s.is_frozen` is carried
through there. -/
def classifyTail (e : Energies ℚ) (s : ClassifierState) :
    DetectionResult × ClassifierState :=
  if tremorDominant e then
    ({ tremor_intensity := intensity e.tremor, dyskinesia_intensity := 0,
       fog_active := false },
     { is_frozen := false, was_walking := false })
  else if dyskinesiaDominant e then
    ({ tremor_intensity := 0, dyskinesia_intensity := intensity e.dyskinesia,
       fog_active := false },
     { is_frozen := false, was_walking := false })
  else if fogMixedMode e ∨ fogContextMode e s.was_walking then
    ({ tremor_intensity := 0, dyskinesia_intensity := 0, fog_active := true },
     { is_frozen := true, was_walking := false })
  else if e.locomotor > WALK_THRESHOLD then
    ({ tremor_intensity := 0, dyskinesia_intensity := 0, fog_active := false },
     { is_frozen := s.is_frozen, was_walking := true })
  else
    ({ tremor_intensity := 0, dyskinesia_intensity := 0, fog_active := false },
     { is_frozen := s.is_frozen, was_walking := false })

/-- The full classification state machine of `processSignal`
(`src/src/main_last.cpp` lines 241-336), Step 4 of the pipeline: given the
window's band energies and the prior persisted state, produce the
`DetectionResult` of this window and the next persisted state.  Priority 1
(frozen-state maintenance) handles rule 1a (tremor escape), rule 1b
(maintain the freeze lock) and rule 1c (clear `isFrozenState` and fall
through to the remaining priorities within the same window). -/
def classifyWindow (e : Energies ℚ) (s : ClassifierState) :
    DetectionResult × ClassifierState :=
  if s.is_frozen then
    if tremorDominant e then
      ({ tremor_intensity := intensity e.tremor, dyskinesia_intensity := 0,
         fog_active := false },
       { is_frozen := false, was_walking := false })
    else if e.freeze > ACTION_THRESHOLD then
      ({ tremor_intensity := 0, dyskinesia_intensity := 0, fog_active := true },
       { is_frozen := true, was_walking := false })
    else
      classifyTail e { s with is_frozen := false }
  else
    classifyTail e s

/-- Number of non-trivial fields of a `DetectionResult`: how many of
`tremor_intensity > 0`, `dyskinesia_intensity > 0`, `fog_active` hold. -/
def activeCount (r : DetectionResult) : ℕ :=
  (if 0 < r.tremor_intensity then 1 else 0) +
  (if 0 < r.dyskinesia_intensity then 1 else 0) +
  (if r.fog_active then 1 else 0)

/-- C1: for every window's band energies and every prior classifier state,
the produced `DetectionResult` has at most one non-trivial field: at most
one of `tremor_intensity > 0`, `dyskinesia_intensity > 0`,
`fog_active = true` holds. -/
theorem single_dominant_classification (e : Energies ℚ) (s : ClassifierState) :
    activeCount (classifyWindow e s).1 ≤ 1 := by
  unfold classifyWindow classifyTail activeCount
  split_ifs <;> simp_all

/-- The scaled intensity is capped at 100 by the `min(..., 100.0)` clamp. -/
lemma intensity_le_100 (x : ℚ) : intensity x ≤ 100 := by
  unfold intensity
  have h : Int.floor (min (x / 1000) 100) ≤ (100 : ℤ) := by
    calc Int.floor (min (x / 1000) 100) ≤ Int.floor (100 : ℚ) :=
          Int.floor_le_floor (min_le_right _ _)
      _ = 100 := by norm_num
  omega

/-- Above the action threshold the scaled intensity is non-trivial. -/
lemma intensity_pos (x : ℚ) (h : x > ACTION_THRESHOLD) : 0 < intensity x := by
  unfold intensity
  have h15 : (15 : ℚ) ≤ min (x / 1000) 100 := by
    unfold ACTION_THRESHOLD at h
    have : (15 : ℚ) ≤ x / 1000 := by linarith
    exact le_min this (by norm_num)
  have : (1 : ℤ) ≤ Int.floor (min (x / 1000) 100) := by
    rw [Int.le_floor]
    exact le_trans (by norm_num) h15
  omega

/-- In the mixed-mode FOG trigger, the guard `energyLocomotor >
WALK_THRESHOLD` together with the ratio test forces the freeze-band energy
above `ACTION_THRESHOLD`. -/
lemma fogMixedMode_freeze_gt (e : Energies ℚ) (h : fogMixedMode e) :
    e.freeze > ACTION_THRESHOLD := by
  obtain ⟨h1, h2⟩ := h
  unfold WALK_THRESHOLD at h1
  unfold ACTION_THRESHOLD
  have hpos : (0 : ℚ) < e.locomotor := lt_trans (by norm_num) h1
  rw [gt_iff_lt, lt_div_iff₀ hpos] at h2
  nlinarith

/-- C2: a window evaluated with prior `is_frozen = true` whose freeze-band
energy is not above `ACTION_THRESHOLD` and in which tremor does not
dominate (rule 1a does not fire) clears `is_frozen` within that same
window and cannot stay in the freeze outcome: `fog_active` is false,
no tremor intensity is reported, and the next state is not frozen. -/
theorem fog_hysteresis_release (e : Energies ℚ) (s : ClassifierState)
    (hf : s.is_frozen = true) (hfe : ¬ e.freeze > ACTION_THRESHOLD)
    (ht : ¬ tremorDominant e) :
    (classifyWindow e s).1.fog_active = false ∧
    (classifyWindow e s).1.tremor_intensity = 0 ∧
    (classifyWindow e s).2.is_frozen = false := by
  unfold classifyWindow
  rw [hf]
  simp only [if_true, if_neg ht, if_neg hfe]
  unfold classifyTail
  rw [if_neg ht]
  by_cases hd : dyskinesiaDominant e
  · simp [hd]
  · rw [if_neg hd]
    have hfog : ¬ (fogMixedMode e ∨
        fogContextMode e ({ s with is_frozen := false } : ClassifierState).was_walking) := by
      rintro (hm | hc)
      · exact hfe (fogMixedMode_freeze_gt e hm)
      · exact hfe hc.2.1
    rw [if_neg hfog]
    by_cases hw : e.locomotor > WALK_THRESHOLD
    · simp [hw]
    · simp [hw]

/-- C2 witness: concrete instance (all energies zero, frozen prior state). -/
theorem fog_hysteresis_release_witness :
    (classifyWindow ⟨0, 0, 0, 0⟩ ⟨true, false⟩).1.fog_active = false ∧
    (classifyWindow ⟨0, 0, 0, 0⟩ ⟨true, false⟩).1.tremor_intensity = 0 ∧
    (classifyWindow ⟨0, 0, 0, 0⟩ ⟨true, false⟩).2.is_frozen = false :=
  fog_hysteresis_release ⟨0, 0, 0, 0⟩ ⟨true, false⟩ rfl
    (by decide) (by decide)

/-- C3: a window evaluated with prior `is_frozen = true` in which tremor
energy strictly exceeds both dyskinesia and locomotor energy and exceeds
`ACTION_THRESHOLD` fires rule 1a and nothing else: `is_frozen` and
`was_walking` are cleared, a positive tremor intensity is emitted with
`fog_active = false`, and the result is exactly the rule-1a outcome. -/
theorem frozen_tremor_escape (e : Energies ℚ) (s : ClassifierState)
    (hf : s.is_frozen = true) (ht : tremorDominant e) :
    classifyWindow e s =
      ({ tremor_intensity := intensity e.tremor, dyskinesia_intensity := 0,
         fog_active := false },
       { is_frozen := false, was_walking := false }) ∧
    0 < intensity e.tremor := by
  constructor
  · unfold classifyWindow
    rw [hf]
    simp only [if_true, if_pos ht]
  · exact intensity_pos e.tremor ht.1

/-- C3 witness: tremor band at 16000 dominates everything while frozen. -/
theorem frozen_tremor_escape_witness :
    classifyWindow ⟨0, 16000, 0, 16000⟩ ⟨true, false⟩ =
      ({ tremor_intensity := intensity (16000 : ℚ), dyskinesia_intensity := 0,
         fog_active := false },
       { is_frozen := false, was_walking := false }) ∧
    0 < intensity (16000 : ℚ) :=
  frozen_tremor_escape ⟨0, 16000, 0, 16000⟩ ⟨true, false⟩ rfl (by decide)

/-- C4: when neither the frozen-state maintenance (rules 1a/1b) nor the
tremor rule (2) nor the dyskinesia rule (3) terminates the window, the
classifier produces the FOG-trigger outcome — `fog_active = true`,
`is_frozen` set, `was_walking` cleared — exactly when
`(energyLocomotor > WALK_THRESHOLD and energyFreeze / energyLocomotor > 1.5)`
or `(wasWalking and energyFreeze > ACTION_THRESHOLD and
energyFreeze > energyLocomotor)` holds. -/
theorem fog_trigger_rule (e : Energies ℚ) (s : ClassifierState)
    (h1 : ¬ (s.is_frozen = true ∧ e.freeze > ACTION_THRESHOLD))
    (h2 : ¬ tremorDominant e)
    (h3 : ¬ dyskinesiaDominant e) :
    ((classifyWindow e s).1.fog_active = true ∧
     (classifyWindow e s).2 = { is_frozen := true, was_walking := false }) ↔
    (fogMixedMode e ∨ fogContextMode e s.was_walking) := by
  have htail : ∀ s' : ClassifierState, s'.was_walking = s.was_walking →
      (((classifyTail e s').1.fog_active = true ∧
        (classifyTail e s').2 = { is_frozen := true, was_walking := false }) ↔
       (fogMixedMode e ∨ fogContextMode e s.was_walking)) := by
    intro s' hw
    unfold classifyTail
    rw [if_neg h2, if_neg h3, hw]
    by_cases hfog : fogMixedMode e ∨ fogContextMode e s.was_walking
    · simp [hfog]
    · rw [if_neg hfog]
      by_cases hl : e.locomotor > WALK_THRESHOLD
      · simp [hl, hfog]
      · simp [hl, hfog]
  unfold classifyWindow
  by_cases hf : s.is_frozen
  · rw [if_pos hf, if_neg h2]
    have hfe : ¬ e.freeze > ACTION_THRESHOLD := fun h => h1 ⟨hf, h⟩
    rw [if_neg hfe]
    exact htail { s with is_frozen := false } rfl
  · rw [if_neg hf]
    exact htail s rfl

/-- C4 witness: mixed-mode window (locomotor 20000, freeze 40000) from a
non-frozen prior state produces the FOG-trigger outcome. -/
theorem fog_trigger_rule_witness :
    (classifyWindow ⟨20000, 0, 0, 40000⟩ ⟨false, false⟩).1.fog_active = true ∧
    (classifyWindow ⟨20000, 0, 0, 40000⟩ ⟨false, false⟩).2 =
      { is_frozen := true, was_walking := false } :=
  (fog_trigger_rule ⟨20000, 0, 0, 40000⟩ ⟨false, false⟩
      (by decide) (by decide) (by decide)).mpr
    (Or.inl ⟨by norm_num [WALK_THRESHOLD], by norm_num⟩)

/-- C5: emitted intensities always lie in `[0, 100]` (the lower bound is
by the `ℕ` value type, mirroring `uint8_t` written from a clamped
non-negative value); when rule 2 fires the emitted tremor intensity is
exactly `min(energyTremor / 1000, 100)` truncated, and when rule 3 fires
the emitted dyskinesia intensity is exactly
`min(energyDyskinesia / 1000, 100)` truncated. -/
theorem intensity_range_and_value (e : Energies ℚ) (s : ClassifierState) :
    (classifyWindow e s).1.tremor_intensity ≤ 100 ∧
    (classifyWindow e s).1.dyskinesia_intensity ≤ 100 ∧
    (s.is_frozen = false → tremorDominant e →
      (classifyWindow e s).1.tremor_intensity = intensity e.tremor) ∧
    (¬ tremorDominant e → dyskinesiaDominant e →
      ¬ (s.is_frozen = true ∧ e.freeze > ACTION_THRESHOLD) →
      (classifyWindow e s).1.dyskinesia_intensity = intensity e.dyskinesia) := by
  refine ⟨?_, ?_, ?_, ?_⟩
  · unfold classifyWindow classifyTail
    split_ifs <;> simp [intensity_le_100]
  · unfold classifyWindow classifyTail
    split_ifs <;> simp [intensity_le_100]
  · intro hf ht
    unfold classifyWindow classifyTail
    rw [hf]
    simp [ht]
  · intro ht hd h1
    unfold classifyWindow
    by_cases hf : s.is_frozen
    · rw [if_pos hf, if_neg ht, if_neg (fun h => h1 ⟨hf, h⟩)]
      unfold classifyTail
      rw [if_neg ht, if_pos hd]
    · rw [if_neg hf]
      unfold classifyTail
      rw [if_neg ht, if_pos hd]

/-- C5 witness: rule 3 fires on a dyskinesia-dominant window and the
emitted value is the truncated clamped scaled energy, within range. -/
theorem intensity_range_and_value_witness :
    (classifyWindow ⟨0, 0, 234567, 234567⟩ ⟨false, false⟩).1.dyskinesia_intensity =
      intensity (234567 : ℚ) ∧
    (classifyWindow ⟨0, 0, 234567, 234567⟩ ⟨false, false⟩).1.dyskinesia_intensity ≤ 100 := by
  have h := intensity_range_and_value ⟨0, 0, 234567, 234567⟩ ⟨false, false⟩
  exact ⟨h.2.2.2 (by decide) (by decide) (by decide), h.2.1⟩

/-- C7: the mixed-mode ratio test is equivalent to its syntactically
guarded form, in which the division `energyFreeze / energyLocomotor` is
evaluated only under the `energyLocomotor > WALK_THRESHOLD` guard (the
C++ short-circuit `&&`), and with zero locomotor energy the test is simply
false: classifier evaluation is total and the division is never evaluated
on a zero denominator. -/
theorem ratio_guard_no_fault (e : Energies ℚ) :
    (fogMixedMode e ↔ fogMixedModeGuarded e) ∧
    (e.locomotor = 0 → ¬ fogMixedMode e) := by
  constructor
  · unfold fogMixedMode fogMixedModeGuarded
    by_cases hl : e.locomotor > WALK_THRESHOLD
    · simp [hl]
    · simp [hl]
  · intro h0 hm
    have := hm.1
    rw [h0] at this
    exact absurd this (by norm_num [WALK_THRESHOLD])

/-- C7 witness: with zero locomotor energy (and large freeze energy) the
mixed-mode FOG test does not hold. -/
theorem ratio_guard_no_fault_witness :
    ¬ fogMixedMode ⟨0, 0, 0, 20000⟩ :=
  (ratio_guard_no_fault ⟨0, 0, 0, 20000⟩).2 rfl

/-- `ClassifierState` at pipeline start: both persisted bits false. -/
def initState : ClassifierState :=
  { is_frozen := false, was_walking := false }

/-- One classification step seen as a transition on the persisted state. -/
def stepState (s : ClassifierState) (e : Energies ℚ) : ClassifierState :=
  (classifyWindow e s).2

/-- Every single classification step, from any prior state, leaves the
persisted bits mutually exclusive: a frozen next state never remembers
walking. -/
lemma stepState_exclusive (s : ClassifierState) (e : Energies ℚ) :
    (stepState s e).is_frozen = true → (stepState s e).was_walking = false := by
  unfold stepState classifyWindow classifyTail
  split_ifs <;> simp_all

lemma foldl_stepState_exclusive (ws : List (Energies ℚ)) :
    ∀ s : ClassifierState, (s.is_frozen = true → s.was_walking = false) →
    ((ws.foldl stepState s).is_frozen = true →
      (ws.foldl stepState s).was_walking = false) := by
  induction ws with
  | nil => intro s hs; exact hs
  | cons w ws ih =>
      intro s _
      exact ih (stepState s w) (stepState_exclusive s w)

/-- C10: starting from the initial state `{is_frozen := false,
was_walking := false}`, after any sequence of classified windows the
reachable persisted state satisfies `is_frozen = true →
was_walking = false`: the two bits are never simultaneously true. -/
theorem frozen_walking_exclusive (ws : List (Energies ℚ)) :
    (ws.foldl stepState initState).is_frozen = true →
    (ws.foldl stepState initState).was_walking = false :=
  foldl_stepState_exclusive ws initState (by simp [initState])

/-- C10 witness: a single mixed-mode FOG window reaches a frozen state,
whose walking bit is indeed clear. -/
theorem frozen_walking_exclusive_witness :
    (([⟨20000, 0, 0, 40000⟩] : List (Energies ℚ)).foldl stepState
      initState).was_walking = false :=
  frozen_walking_exclusive [⟨20000, 0, 0, 40000⟩] (by with_unfolding_all decide)

/-- `#define REAL_SAMPLES 156` — effective data points per window
(3 seconds at 52 Hz). -/
def REAL_SAMPLES : ℕ := 156

/-- `#define SAMPLES 256` — the FFT size (power of two, ≥ `REAL_SAMPLES`). -/
def SAMPLES : ℕ := 256

/-- The window assembler of `loop` in `src/src/main_best.cpp`: each sample
arrival is stored at `sampleIndex`, which then advances; once
`REAL_SAMPLES` samples have been stored the completed window is handed to
`processSignal` and the buffer resets (`sampleIndex = 0`).  In the source
the processing happens on the loop tick after the 156th store, before any
further sample is read; here it coincides with the arrival of the 156th
sample.  Arguments: partial buffer so far, remaining sample stream;
returns the final partial buffer and the emitted windows in order. -/
def pushRun : List ℚ → List ℚ → List ℚ × List (List ℚ)
  | buf, [] => (buf, [])
  | buf, x :: xs =>
    if buf.length + 1 = REAL_SAMPLES then
      ((pushRun [] xs).1, (buf ++ [x]) :: (pushRun [] xs).2)
    else
      pushRun (buf ++ [x]) xs

/-- Windows emitted by the assembler over a whole sample stream, starting
from the empty buffer (system restart). -/
def assembleWindows (xs : List ℚ) : List (List ℚ) :=
  (pushRun [] xs).2

lemma pushRun_chunks (xs : List ℚ) : ∀ buf : List ℚ,
    buf.length < REAL_SAMPLES →
    (pushRun buf xs).2 =
      (List.range ((buf.length + xs.length) / REAL_SAMPLES)).map
        (fun j => ((buf ++ xs).drop (j * REAL_SAMPLES)).take REAL_SAMPLES) := by
  induction xs with
  | nil =>
      intro buf h
      simp [pushRun, Nat.div_eq_of_lt h]
  | cons x xs ih =>
      intro buf h
      by_cases hfull : buf.length + 1 = REAL_SAMPLES
      · have hlen : (buf ++ [x]).length = REAL_SAMPLES := by
          simpa using hfull
        have hdiv : (buf.length + (x :: xs).length) / REAL_SAMPLES
            = xs.length / REAL_SAMPLES + 1 := by
          have h1 : buf.length + (x :: xs).length = xs.length + REAL_SAMPLES := by
            simp only [List.length_cons]
            omega
          rw [h1, Nat.add_div_right _ (by norm_num [REAL_SAMPLES])]
        simp only [pushRun, if_pos hfull]
        rw [ih [] (by norm_num [REAL_SAMPLES]), hdiv, List.range_succ_eq_map]
        simp only [List.nil_append, List.length_nil, Nat.zero_add,
          List.map_cons, List.map_map]
        rw [List.append_cons buf x xs]
        refine congrArg₂ List.cons ?_ ?_
        · rw [Nat.zero_mul, List.drop_zero, List.take_left' hlen]
        · refine List.map_congr_left fun j _ => ?_
          simp only [Function.comp_apply, Nat.succ_mul]
          rw [Nat.add_comm (j * REAL_SAMPLES) REAL_SAMPLES,
            ← List.drop_drop, List.drop_left' hlen]
      · have hlt : (buf ++ [x]).length < REAL_SAMPLES := by
          simp only [List.length_append, List.length_cons, List.length_nil]
          omega
        have e1 : (buf ++ [x]) ++ xs = buf ++ x :: xs := by simp
        have e2 : (buf ++ [x]).length + xs.length
            = buf.length + (x :: xs).length := by
          simp only [List.length_append, List.length_cons, List.length_nil]
          omega
        simp only [pushRun, if_neg hfull]
        rw [ih (buf ++ [x]) hlt, e1, e2]

/-- C6: the window assembler emits exactly one window per `REAL_SAMPLES`
consecutive arrivals — the `j`-th emitted window is precisely the `j`-th
disjoint block of `REAL_SAMPLES` consecutive samples of the stream
(consecutive windows share no samples), the number of windows emitted is
the number of completed blocks, and before `REAL_SAMPLES` samples have
been observed since start no window is emitted. -/
theorem window_cadence (xs : List ℚ) :
    assembleWindows xs =
      (List.range (xs.length / REAL_SAMPLES)).map
        (fun j => (xs.drop (j * REAL_SAMPLES)).take REAL_SAMPLES) ∧
    (assembleWindows xs).length = xs.length / REAL_SAMPLES ∧
    (xs.length < REAL_SAMPLES → assembleWindows xs = []) := by
  have h : assembleWindows xs =
      (List.range (xs.length / REAL_SAMPLES)).map
        (fun j => (xs.drop (j * REAL_SAMPLES)).take REAL_SAMPLES) := by
    unfold assembleWindows
    rw [pushRun_chunks xs [] (by norm_num [REAL_SAMPLES])]
    simp
  refine ⟨h, ?_, ?_⟩
  · rw [h]
    simp
  · intro hlt
    rw [h, Nat.div_eq_of_lt hlt]
    simp

/-- Bin centre frequency as computed in `processSignal` and
`run_algorithm`: `double freq = i * 0.203;`. -/
def binFreq (k : ℕ) : ℚ :=
  (k : ℚ) * (203 / 1000)

/-- `freq >= low && freq <= high` for one bin. -/
def inBand (low high : ℚ) (k : ℕ) : Prop :=
  low ≤ binFreq k ∧ binFreq k ≤ high

instance (low high : ℚ) (k : ℕ) : Decidable (inBand low high k) := by
  unfold inBand; infer_instance

/-- Band integration of `processSignal` (`src/src/main_last.cpp` lines
221-228, identical in `main_best.cpp` and `test/test_algo.cpp`): sum of
the spectrum values at bins `2 ≤ k < SAMPLES/2` whose centre frequency
`k * 0.203` lies within `[low, high]`.  Polymorphic in the scalar type so
it applies to the exact-real spectral chain as well as to abstract
rational spectra. -/
def bandSum {α : Type} [AddCommMonoid α] (low high : ℚ) (mag : ℕ → α) : α :=
  ∑ k ∈ Finset.Ico 2 (SAMPLES / 2), if inBand low high k then mag k else 0

/-- Band energy as the specification words it (for comparison with
`bandSum`): the sum of the magnitudes of exactly those bins
`2 ≤ k ≤ SAMPLES/2` whose centre frequency `k * df`, with
`df = Fs / N_fft = 52 / 256`, lies within `[low, high]` inclusive;
bins 0 and 1 contribute to no band. -/
def specBandSum {α : Type} [AddCommMonoid α] (low high : ℚ) (mag : ℕ → α) : α :=
  ∑ k ∈ Finset.Icc 2 (SAMPLES / 2),
    if low ≤ (k : ℚ) * (52 / 256) ∧ (k : ℚ) * (52 / 256) ≤ high then mag k else 0

lemma bandSum_eq_specBandSum {α : Type} [AddCommMonoid α] (low high : ℚ)
    (hcond : ∀ k ∈ Finset.Ico 2 (SAMPLES / 2),
      inBand low high k ↔
        (low ≤ (k : ℚ) * (52 / 256) ∧ (k : ℚ) * (52 / 256) ≤ high))
    (htop : ¬ (low ≤ ((SAMPLES / 2 : ℕ) : ℚ) * (52 / 256) ∧
        ((SAMPLES / 2 : ℕ) : ℚ) * (52 / 256) ≤ high))
    (mag : ℕ → α) :
    bandSum low high mag = specBandSum low high mag := by
  unfold bandSum specBandSum
  rw [← Nat.Ico_succ_right, Nat.succ_eq_add_one,
    Finset.sum_Ico_succ_top (by norm_num [SAMPLES]), if_neg htop, add_zero]
  exact Finset.sum_congr rfl fun k hk => if_congr (hcond k hk) rfl rfl

set_option maxRecDepth 40000 in
/-- C9: for every magnitude spectrum and each of the four configured bands
(locomotor `[0.5, 3]`, tremor `[3, 5]`, dyskinesia `[5, 7]`, freeze
`[3, 8]`), the band energy computed by the source (bins
`2 ≤ k < SAMPLES/2` at centre frequency `k * 0.203`) equals the sum the
specification describes: the magnitudes of exactly those bins
`2 ≤ k ≤ SAMPLES/2` whose centre frequency `k * df` (`df = 52/256`) lies
within `[low, high]` inclusive, bins 0 and 1 contributing to no band. -/
theorem band_integration_spec (mag : ℕ → ℚ) :
    bandSum (1 / 2) 3 mag = specBandSum (1 / 2) 3 mag ∧
    bandSum 3 5 mag = specBandSum 3 5 mag ∧
    bandSum 5 7 mag = specBandSum 5 7 mag ∧
    bandSum 3 8 mag = specBandSum 3 8 mag := by
  refine ⟨?_, ?_, ?_, ?_⟩ <;>
    refine bandSum_eq_specBandSum _ _ ?_ ?_ mag
  · with_unfolding_all decide
  · with_unfolding_all decide
  · with_unfolding_all decide
  · with_unfolding_all decide
  · with_unfolding_all decide
  · with_unfolding_all decide
  · with_unfolding_all decide
  · with_unfolding_all decide

noncomputable section

/-- Step 1 of `processSignal`, first half: the arithmetic mean of the
`REAL_SAMPLES` real samples (`meanVal += vReal[i]; meanVal /= REAL_SAMPLES`). -/
def meanVal (w : Fin REAL_SAMPLES → ℝ) : ℝ :=
  (∑ i, w i) / (REAL_SAMPLES : ℝ)

/-- Step 1 of `processSignal`, second half: the `SAMPLES`-length FFT input
buffer after DC removal — the mean of the `REAL_SAMPLES` real samples is
subtracted from each real sample (`vReal[i] -= meanVal`), and the
zero-padding region is set to exactly zero (`else vReal[i] = 0`). -/
def dcRemove (w : Fin REAL_SAMPLES → ℝ) : ℕ → ℝ :=
  fun i => if h : i < REAL_SAMPLES then w ⟨i, h⟩ - meanVal w else 0

/-- The Hamming window factor applied by
`FFT.windowing(FFT_WIN_TYP_HAMMING, FFT_FORWARD)` at index `i`
(the symmetric closed form of the library's mirrored half-table). -/
def hammingWeight (i : ℕ) : ℝ :=
  0.54 - 0.46 * Real.cos (2 * Real.pi * (i : ℝ) / ((SAMPLES : ℝ) - 1))

/-- The buffer after leakage-reduction windowing: pointwise product with
the Hamming factors (the zero-padded tail stays zero). -/
def windowedBuf (buf : ℕ → ℝ) : ℕ → ℝ :=
  fun i => buf i * hammingWeight i

/-- Real part of the length-`SAMPLES` discrete Fourier transform computed
by `FFT.compute(FFT_FORWARD)` on the real (zero-imaginary) buffer, in
exact arithmetic. -/
def dftRe (f : ℕ → ℝ) (k : ℕ) : ℝ :=
  ∑ n ∈ Finset.range SAMPLES,
    f n * Real.cos (2 * Real.pi * (k : ℝ) * (n : ℝ) / (SAMPLES : ℝ))

/-- Imaginary part of the forward transform of the real buffer. -/
def dftIm (f : ℕ → ℝ) (k : ℕ) : ℝ :=
  -∑ n ∈ Finset.range SAMPLES,
    f n * Real.sin (2 * Real.pi * (k : ℝ) * (n : ℝ) / (SAMPLES : ℝ))

/-- `FFT.complexToMagnitude()`: `magnitude[k] = sqrt(re[k]^2 + im[k]^2)`. -/
def magnitudeOf (f : ℕ → ℝ) (k : ℕ) : ℝ :=
  Real.sqrt (dftRe f k ^ 2 + dftIm f k ^ 2)

/-- Steps 2-3 of `processSignal` applied to a DC-removed buffer:
windowing, forward transform, magnitude conversion and band integration
into the four band energies. -/
def analyzeFromBuf (buf : ℕ → ℝ) : Energies ℝ :=
  { locomotor := bandSum (1 / 2) 3 (magnitudeOf (windowedBuf buf))
    tremor := bandSum 3 5 (magnitudeOf (windowedBuf buf))
    dyskinesia := bandSum 5 7 (magnitudeOf (windowedBuf buf))
    freeze := bandSum 3 8 (magnitudeOf (windowedBuf buf)) }

/-- The spectral-analysis half of `processSignal` (Steps 1-3): from a
window of `REAL_SAMPLES` samples to the four band energies. -/
def analyzeWindow (w : Fin REAL_SAMPLES → ℝ) : Energies ℝ :=
  analyzeFromBuf (dcRemove w)

end

/-- Adding a constant to every sample shifts the window mean by exactly
that constant. -/
lemma meanVal_add_const (w : Fin REAL_SAMPLES → ℝ) (c : ℝ) :
    meanVal (fun i => w i + c) = meanVal w + c := by
  unfold meanVal
  rw [Finset.sum_add_distrib, Finset.sum_const, Finset.card_univ,
    Fintype.card_fin, nsmul_eq_mul]
  have h : (REAL_SAMPLES : ℝ) ≠ 0 := by norm_num [REAL_SAMPLES]
  field_simp
  ring

/-- DC removal cancels any constant offset: the DC-removed buffer of the
shifted window equals that of the original window, with the padding
region exactly zero in both. -/
lemma dcRemove_add_const (w : Fin REAL_SAMPLES → ℝ) (c : ℝ) :
    dcRemove (fun i => w i + c) = dcRemove w := by
  funext i
  unfold dcRemove
  rw [meanVal_add_const]
  by_cases h : i < REAL_SAMPLES
  · rw [dif_pos h, dif_pos h]
    ring
  · rw [dif_neg h, dif_neg h]

/-- C8: adding any constant `c` to every sample of a window yields exactly
the same four band energies (locomotor, tremor, dyskinesia, freeze) as the
original window: the mean of the `REAL_SAMPLES` real samples is subtracted
from each real sample before any further processing, and the zero-padding
region is set to exactly zero, so the entire downstream chain sees an
identical buffer. -/
theorem dc_offset_invariance (w : Fin REAL_SAMPLES → ℝ) (c : ℝ) :
    analyzeWindow (fun i => w i + c) = analyzeWindow w := by
  unfold analyzeWindow
  rw [dcRemove_add_const]

end PDMonitor
